import Mathlib

/-!
Verification development for the host-side Parquet read orchestration
(`cpp/src/io/parquet/parquet_reader.cpp`).  The pipeline is shallowly
embedded: pure C++ routines become Lean functions, the GPU kernels are
external collaborators whose outputs are inputs of the model, and every
device/host allocation is recorded as an explicit event so that claims
about allocation counts and sizes can be stated.

Struct layouts that live in headers outside the sources at hand
(`parquet.h`, `parquet_gpu.h`) are modelled from the specification and
noted as such at each definition.
-/

set_option linter.unusedVariables false

namespace ParquetReader

/-- Parquet physical types (`parquet::Type`). -/
inductive PqType
  | BOOLEAN | INT32 | INT64 | INT96 | FLOAT | DOUBLE | BYTE_ARRAY | FIXED_LEN_BYTE_ARRAY
  deriving Repr, DecidableEq

/-- Modelled from the spec: the standard Parquet `Type` enumeration codes,
used by the source to build the encoded physical-type tag
`schema.type | (type_length << 3)` (the enum itself is declared in
`parquet.h`, outside the sources at hand). -/
def PqType.code : PqType → Nat
  | .BOOLEAN => 0
  | .INT32 => 1
  | .INT64 => 2
  | .INT96 => 3
  | .FLOAT => 4
  | .DOUBLE => 5
  | .BYTE_ARRAY => 6
  | .FIXED_LEN_BYTE_ARRAY => 7

/-- Parquet converted/logical types (`parquet::ConvertedType`); `OTHER`
stands for every annotation the `to_dtype` switch does not name. -/
inductive ConvType
  | NONE | UINT_8 | INT_8 | UINT_16 | INT_16 | DATE | TIMESTAMP_MILLIS | TIMESTAMP_MICROS | OTHER
  deriving Repr, DecidableEq

/-- Compression codecs (`parquet::Compression`); `OTHERCODEC` stands for
any codec outside the source's table. -/
inductive Compression
  | UNCOMPRESSED | GZIP | SNAPPY | OTHERCODEC
  deriving Repr, DecidableEq

/-- `g_supportedCodecs` (the source's static table of the two supported codecs). -/
def g_supportedCodecs : List Compression := [.GZIP, .SNAPPY]

/-- Output value types (`gdf_dtype`), restricted to the members the reader produces. -/
inductive GdfDtype
  | GDF_INT8 | GDF_INT16 | GDF_INT32 | GDF_INT64 | GDF_FLOAT32 | GDF_FLOAT64
  | GDF_DATE32 | GDF_DATE64 | GDF_STRING | GDF_invalid
  deriving Repr, DecidableEq

/-- Time-unit component of `gdf_dtype_extra_info`. -/
inductive TimeUnit
  | TIME_UNIT_NONE | TIME_UNIT_ms | TIME_UNIT_us
  deriving Repr, DecidableEq

/-- `to_dtype`: map a physical/converted type pair to the output type and
its time-unit metadata.  The converted ("logical") type takes precedence;
otherwise the physical storage type decides; anything else is `GDF_invalid`. -/
def to_dtype (physical : PqType) (logical : ConvType) : GdfDtype × TimeUnit :=
  match logical with
  | .UINT_8 => (.GDF_INT8, .TIME_UNIT_NONE)
  | .INT_8 => (.GDF_INT8, .TIME_UNIT_NONE)
  | .UINT_16 => (.GDF_INT16, .TIME_UNIT_NONE)
  | .INT_16 => (.GDF_INT16, .TIME_UNIT_NONE)
  | .DATE => (.GDF_DATE32, .TIME_UNIT_NONE)
  | .TIMESTAMP_MILLIS => (.GDF_DATE64, .TIME_UNIT_ms)
  | .TIMESTAMP_MICROS => (.GDF_DATE64, .TIME_UNIT_us)
  | _ =>
    match physical with
    | .BOOLEAN => (.GDF_INT8, .TIME_UNIT_NONE)
    | .INT32 => (.GDF_INT32, .TIME_UNIT_NONE)
    | .INT64 => (.GDF_INT64, .TIME_UNIT_NONE)
    | .FLOAT => (.GDF_FLOAT32, .TIME_UNIT_NONE)
    | .DOUBLE => (.GDF_FLOAT64, .TIME_UNIT_NONE)
    | .BYTE_ARRAY => (.GDF_STRING, .TIME_UNIT_NONE)
    | .FIXED_LEN_BYTE_ARRAY => (.GDF_STRING, .TIME_UNIT_NONE)
    | _ => (.GDF_invalid, .TIME_UNIT_NONE)

/-- `to_dot_string`: join a schema path with dots ("" for the empty path). -/
def to_dot_string (path_in_schema : List String) : String :=
  match path_in_schema with
  | [] => ""
  | p :: rest => rest.foldl (fun s q => s ++ "." ++ q) p

/-- Modelled from the spec: `parquet::CPReader::NumRequiredBits` (declared in
the metadata-parser header, outside the sources at hand) — the number of bits
required to store level values up to `max_level`, i.e. the bit width of
`max_level`. -/
def NumRequiredBits (max_level : Nat) : Nat := Nat.size max_level

/-- Modelled from the spec: the fixed 4-byte magic value that must open and
close the file (`PARQUET_MAGIC` in `parquet.h`, "PAR1" little-endian). -/
def PARQUET_MAGIC : Nat := 0x31524150

/-- Modelled from the spec: `sizeof(parquet::file_header_s)` — the header
holds only the 4-byte magic. -/
def file_header_size : Nat := 4

/-- Modelled from the spec: `sizeof(parquet::file_ender_s)` — a 4-byte
little-endian footer-length field followed by the 4-byte magic; the spec's
footer range `[fileSize - footerLen - 8, fileSize - 8)` fixes its size at 8. -/
def file_ender_size : Nat := 8

/-- Schema element of the parsed metadata (the fields the reader consults). -/
structure SchemaElt where
  type : PqType
  converted_type : ConvType
  max_definition_level : Nat
  max_repetition_level : Nat
  type_length : Nat
  deriving Repr, DecidableEq

/-- Default-constructed schema element (used where the source indexes the
schema vector under the assumption, stated in the spec, that the metadata
parser produced in-range `schema_idx` links). -/
def dSchema : SchemaElt :=
  { type := .BOOLEAN, converted_type := .OTHER, max_definition_level := 0,
    max_repetition_level := 0, type_length := 0 }

/-- Column-chunk record of a row group (the `meta_data` fields the reader uses,
plus the `schema_idx` link set up by `InitSchema`). -/
structure ColumnChunkMeta where
  path_in_schema : List String
  codec : Compression
  total_compressed_size : Nat
  num_values : Nat
  data_page_offset : Nat
  dictionary_page_offset : Nat
  schema_idx : Nat
  deriving Repr, DecidableEq

/-- Default column-chunk record. -/
def dChunkMeta : ColumnChunkMeta :=
  { path_in_schema := [], codec := .UNCOMPRESSED, total_compressed_size := 0,
    num_values := 0, data_page_offset := 0, dictionary_page_offset := 0, schema_idx := 0 }

/-- A row group: its column chunks and its row count. -/
structure RowGroup where
  columns : List ColumnChunkMeta
  num_rows : Nat
  deriving Repr, DecidableEq

/-- Parsed file metadata (the parts the orchestration reads). -/
structure FileMetaData where
  schema : List SchemaElt
  row_groups : List RowGroup
  num_rows : Nat
  deriving Repr, DecidableEq

/-- Default-constructed `FileMetaData`: what `file_md` holds when `cp.read`
rejects the footer bytes and leaves it untouched. -/
def dMD : FileMetaData := { schema := [], row_groups := [], num_rows := 0 }

/-- Host-visible output column (`gdf_column`: name, dtype and its time-unit
info, row count, null count).  The device data/validity buffers themselves
are tracked through allocation events. -/
structure GdfColumn where
  name : String
  dtype : GdfDtype
  dtype_info : TimeUnit
  size : Nat
  null_count : Int
  deriving Repr, DecidableEq

/-- Default column value (used only to totalize in-range vector indexing). -/
def dCol : GdfColumn :=
  { name := "", dtype := .GDF_invalid, dtype_info := .TIME_UNIT_NONE, size := 0, null_count := 0 }

/-- Column Selector (reader lines 429-447): start from all column indexes of
row group 0; when an allow-list is given, append the detected index-column
name to it and keep exactly the columns whose dot-joined schema path occurs
in the extended list, in file order. -/
def select_columns (cols : List ColumnChunkMeta) (use_cols : Option (List String))
    (index_col_name : String) : List Nat :=
  match use_cols with
  | none => List.range cols.length
  | some use =>
    let names := use ++ [index_col_name]
    (cols.enum.filter (fun p => names.contains (to_dot_string p.2.path_in_schema))).map
      Prod.fst

/-- Body of the column-initialization loop (reader lines 461-477), over an
explicit list `col_indexes` and iteration count `num_columns`.  Every vector
access is through `Option`: a `none` result models an out-of-bounds read
(undefined behavior in the source).  Returns the initialized columns and the
`index_col` slot (−1 when the index column is not among them; the last
matching position wins, as in the source's ascending loop). -/
def init_columns_loop (md : FileMetaData) (index_col_name : String)
    (col_indexes : List Nat) (num_columns : Nat) : Option (List GdfColumn × Int) :=
  (List.range num_columns).foldl
    (fun (acc : Option (List GdfColumn × Int)) (i : Nat) =>
      acc.bind fun st =>
        (col_indexes[i]?).bind fun (ci : Nat) =>
          (md.row_groups[0]?).bind fun (rg0 : RowGroup) =>
            (rg0.columns[ci]?).bind fun (col : ColumnChunkMeta) =>
              (md.schema[col.schema_idx]?).bind fun (schema : SchemaElt) =>
                let name := to_dot_string col.path_in_schema
                let index_col : Int := if name == index_col_name then (i : Int) else st.2
                let (dt, ti) := to_dtype schema.type schema.converted_type
                some (st.1 ++ [{ name := name, dtype := dt, dtype_info := ti,
                                 size := md.num_rows, null_count := 0 }], index_col))
    (some ([], -1))

/-- Column initialization as written (reader lines 455-477): line 458 executes
`col_indexes.clear()` before the loop at lines 461-477 reads `col_indexes[i]`,
so under ISO C++ semantics every iteration indexes an empty vector
out of bounds.  The cleared list is therefore what the loop runs over. -/
def init_columns (md : FileMetaData) (index_col_name : String)
    (sel : List Nat) : Option (List GdfColumn × Int) :=
  init_columns_loop md index_col_name [] sel.length

/-- Column initialization under the de-facto behavior of mainstream C++
standard libraries, where `clear()` keeps the heap buffer intact so the
out-of-bounds reads of line 462 observe the pre-clear values: the loop
effectively runs over the selection computed at lines 434-447.  The composed
pipeline model below uses this variant so the later phases remain
analyzable; `init_columns` above is the ISO-semantics reading. -/
def init_columns_defacto (md : FileMetaData) (index_col_name : String)
    (sel : List Nat) : Option (List GdfColumn × Int) :=
  init_columns_loop md index_col_name sel sel.length

/-- Modelled from the spec: `parquet::gpu::ColumnChunkDesc` (declared in
`parquet_gpu.h`, outside the sources at hand) with the fields the
orchestration reads or writes.  Device pointers into the shared page-info
array and the dictionary-index array are modelled as offsets (`none` =
`nullptr`); the staged compressed-data pointer and the destination
data/validity pointers are tracked through allocation events and the
chunk-to-column side table instead. -/
structure ChunkDesc where
  compressed_size : Nat
  num_values : Nat
  start_row : Nat
  num_rows : Nat
  max_def_level : Nat
  max_rep_level : Nat
  def_level_bits : Nat
  rep_level_bits : Nat
  data_type : Nat
  num_data_pages : Nat
  num_dict_pages : Nat
  max_num_pages : Nat
  page_info : Option Nat
  str_dict_index : Option Nat
  deriving Repr, DecidableEq

/-- Default chunk descriptor. -/
def dChunk : ChunkDesc :=
  { compressed_size := 0, num_values := 0, start_row := 0, num_rows := 0,
    max_def_level := 0, max_rep_level := 0, def_level_bits := 0, rep_level_bits := 0,
    data_type := 0, num_data_pages := 0, num_dict_pages := 0, max_num_pages := 0,
    page_info := none, str_dict_index := none }

/-- Device/pinned-host allocation events, in program order (sizes in the unit
the corresponding call uses: bytes for byte buffers, element counts for
typed arrays). -/
inductive AllocEvent
  | chunkDescs (n : Nat)      -- `alloc_chunks`: descriptor arrays for `n` chunks
  | compressedData (bytes : Nat)  -- staging one chunk's compressed bytes
  | pageInfos (n : Nat)       -- `alloc_pages`: page-info arrays of length `n`
  | inflateIn (n : Nat)       -- decompression input descriptors (host+device)
  | inflateOut (n : Nat)      -- decompression status slots (host+device)
  | decompressed (bytes : Nat)  -- the single shared decompressed-data buffer
  | columnData (bytes : Nat)  -- one output column's data buffer
  | columnValid (bytes : Nat) -- one output column's validity bitmap
  | dictIndex (n : Nat)       -- `alloc_dictionaries`: string-dictionary index entries
  deriving Repr, DecidableEq

/-- Recognizes the shared decompressed-data buffer allocation. -/
def AllocEvent.isDecompBuffer : AllocEvent → Bool
  | .decompressed _ => true
  | _ => false

/-- Recognizes the page-info array allocation. -/
def AllocEvent.isPageInfoAlloc : AllocEvent → Bool
  | .pageInfos _ => true
  | _ => false

/-- Result of the Chunk Descriptor Builder (reader lines 479-545): the built
descriptors, the side table mapping each descriptor to its source
column-chunk record and destination column index, the accumulated row total,
the compressed-data staging allocations, and the number of matching chunks
that were dropped because the preallocated capacity was exhausted (the
source only prints "Too many chunks!!!" for these). -/
structure BuildOut where
  chunks : List ChunkDesc
  chunk_map : List (ColumnChunkMeta × Nat)
  num_rows : Nat
  dropped : Nat
  allocs : List AllocEvent
  deriving Repr, DecidableEq

/-- Chunk Descriptor Builder (reader lines 483-545).  For every row group,
for every column chunk whose dot-joined name equals some output column's
name (first match wins, as in the source's inner loop with `break`): if a
descriptor slot is free, populate the static fields, stage the compressed
bytes when their size is nonzero, and record the side-table entry; otherwise
drop the chunk, counting it in `dropped`.  Casts to the descriptor's 32/16-bit
fields are reduced modulo the field width where the source truncates. -/
def build_chunks (rowgroups : List RowGroup) (schema : List SchemaElt)
    (columns : List GdfColumn) (max_num_chunks : Nat) : BuildOut :=
  rowgroups.foldl
    (fun (st : BuildOut) rg =>
      let st2 := rg.columns.foldl
        (fun (st : BuildOut) col =>
          let name := to_dot_string col.path_in_schema
          match columns.findIdx? (fun c => c.name == name) with
          | none => st
          | some k =>
            if st.chunks.length < max_num_chunks then
              let schemaElt := schema.getD col.schema_idx dSchema
              let tl0 : Nat :=
                if schemaElt.type = .FIXED_LEN_BYTE_ARRAY then
                  (schemaElt.type_length <<< 3) % 65536
                else 0
              let dt := (columns.getD k dCol).dtype
              let type_length : Nat :=
                if dt = .GDF_INT8 then 1 else if dt = .GDF_INT16 then 2 else tl0
              let chunk : ChunkDesc :=
                { compressed_size := col.total_compressed_size,
                  num_values := col.num_values,
                  start_row := st.num_rows,
                  num_rows := rg.num_rows % 4294967296,
                  max_def_level := schemaElt.max_definition_level,
                  max_rep_level := schemaElt.max_repetition_level,
                  def_level_bits := NumRequiredBits schemaElt.max_definition_level,
                  rep_level_bits := NumRequiredBits schemaElt.max_repetition_level,
                  data_type := (schemaElt.type.code ||| ((type_length <<< 3) % 65536)) % 65536,
                  num_data_pages := 0, num_dict_pages := 0, max_num_pages := 0,
                  page_info := none, str_dict_index := none }
              { st with
                chunks := st.chunks ++ [chunk],
                chunk_map := st.chunk_map ++ [(col, k)],
                allocs := if 0 < col.total_compressed_size then
                    st.allocs ++ [.compressedData col.total_compressed_size]
                  else st.allocs }
            else { st with dropped := st.dropped + 1 })
        st
      { st2 with num_rows := st2.num_rows + rg.num_rows })
    { chunks := [], chunk_map := [], num_rows := 0, dropped := 0, allocs := [] }

/-- Modelled from the spec: `parquet::gpu::PageInfo` (declared in
`parquet_gpu.h`, outside the sources at hand) with the fields the
orchestration reads: owning chunk index, starting row within the chunk,
flags, value count, encoding, compressed/uncompressed byte sizes, and the
row/valid-value counts written by the page-data decode kernel.  The device
data pointer is not modelled: no claim concerns it, and its repointing to
the decompressed buffer is captured by the layout offsets of the
decompression dispatcher. -/
structure PageInfo where
  chunk_idx : Int
  chunk_row : Nat
  flags : Nat
  num_values : Nat
  encoding : Nat
  compressed_page_size : Nat
  uncompressed_page_size : Nat
  num_rows : Int
  valid_count : Int
  deriving Repr, DecidableEq

/-- Default page record (stands for uninitialized page-info memory). -/
def dPage : PageInfo :=
  { chunk_idx := 0, chunk_row := 0, flags := 0, num_values := 0, encoding := 0,
    compressed_page_size := 0, uncompressed_page_size := 0, num_rows := 0,
    valid_count := 0 }

/-- Pass 1 of `DecodePageHeaders` fills each descriptor's discovered
data-page and dictionary-page counts; the kernel's per-chunk output is the
model's input `pass1`. -/
def apply_pass1 (chunks : List ChunkDesc) (pass1 : List (Nat × Nat)) : List ChunkDesc :=
  chunks.enum.map (fun p =>
    { p.2 with num_data_pages := (pass1.getD p.1 (0, 0)).1,
               num_dict_pages := (pass1.getD p.1 (0, 0)).2 })

/-- Discovered page count of one chunk after pass 1. -/
def pagesOf (c : ChunkDesc) : Nat := c.num_data_pages + c.num_dict_pages

/-- The pass-1 page total (reader lines 552-558): the loop accumulates
`num_data_pages + num_dict_pages` over the descriptors. -/
def total_pages (chunks : List ChunkDesc) : Nat :=
  chunks.foldl (fun t c => t + pagesOf c) 0

/-- The partition loop (reader lines 566-571) from a running `page_cnt`:
set each chunk's `max_num_pages` to its discovered page count and its
`page_info` pointer to the current offset into the shared page-info array,
then advance the offset. -/
def wire_pages_from (page_cnt : Nat) : List ChunkDesc → List ChunkDesc
  | [] => []
  | c :: rest =>
    { c with max_num_pages := pagesOf c, page_info := some page_cnt } ::
      wire_pages_from (page_cnt + pagesOf c) rest

/-- The partition loop starting at offset 0, as in the source. -/
def wire_pages (chunks : List ChunkDesc) : List ChunkDesc := wire_pages_from 0 chunks

/-- Result of the Page Header Decode Driver. -/
structure PageHeaderOut where
  chunks : List ChunkDesc
  total : Nat
  pages : List PageInfo
  allocs : List AllocEvent
  deriving Repr

/-- Page Header Decode Driver (reader lines 547-578): after pass 1 the page
total is accumulated; when it is positive, `alloc_pages` allocates the
page-info array of exactly that length, the partition loop wires every
descriptor's sub-range start, and pass 2 runs over the wired descriptors
(`pass2` is the kernel; its output is the populated page-info array).  When
the total is zero the block at lines 561-684 is skipped entirely: no
allocation, no wiring, no pass 2. -/
def page_header_phase (chunks : List ChunkDesc)
    (pass2 : List ChunkDesc → List PageInfo) : PageHeaderOut :=
  let tp := total_pages chunks
  if 0 < tp then
    let wired := wire_pages chunks
    { chunks := wired, total := tp, pages := pass2 wired, allocs := [.pageInfos tp] }
  else
    { chunks := chunks, total := tp, pages := [], allocs := [] }

/-- Total uncompressed byte volume of a list of pages. -/
def usum (pages : List PageInfo) : Nat :=
  (pages.map (fun p => p.uncompressed_page_size)).sum

/-- Uncompressed byte volume of the flat page array's slice
`[ofs, ofs + cnt)` — the inner `for k` loop at reader lines 594-597. -/
def slice_usum (pages : List PageInfo) (ofs cnt : Nat) : Nat :=
  ((pages.drop ofs).take cnt).foldl (fun a p => a + p.uncompressed_page_size) 0

/-- One iteration of the codec loop (reader lines 588-600): walk the chunks
with a running flat page offset; for every chunk using `codec`, add its
page count and its pages' uncompressed volume.  Returns
`(codec_page_cnt, added uncompressed bytes)`. -/
def codec_step (codec : Compression) (pages : List PageInfo)
    (st : Nat × Nat × Nat) (e : ChunkDesc × Compression) : Nat × Nat × Nat :=
  let (cnt, sz, page_cnt) := st
  if e.2 = codec then
    (cnt + e.1.max_num_pages,
     sz + slice_usum pages page_cnt e.1.max_num_pages,
     page_cnt + e.1.max_num_pages)
  else (cnt, sz, page_cnt + e.1.max_num_pages)

/-- The accumulated `(codec_page_cnt, uncompressed volume)` one codec-loop
iteration produces. -/
def codec_scan_one (codec : Compression) (entries : List (ChunkDesc × Compression))
    (pages : List PageInfo) : Nat × Nat :=
  let st := entries.foldl (codec_step codec pages) (0, 0, 0)
  (st.1, st.2.1)

/-- Result of the Decompression Dispatcher's sizing and allocation steps. -/
structure DecompressOut where
  total_decompressed_size : Nat
  num_compressed_pages : Nat
  codec_page_cnt : List Nat
  allocs : List AllocEvent
  deriving Repr, DecidableEq

/-- Decompression Dispatcher (reader lines 580-683): scan the two supported
codecs in their fixed order, accumulating `total_decompressed_size` and
`num_compressed_pages`; when at least one compressed page exists, allocate
the in/out descriptor arrays and the single shared decompressed-data buffer
sized to the accumulated total (reader lines 617-621; `inflateIn`/`inflateOut`
each stand for the host+device pair of the corresponding arrays).  The
per-codec kernel invocations then lay the pages out at incremental offsets
of that one buffer.  The kernel's per-page statuses are only printed by the
loop at lines 670-674; the source never branches on them, so they do not
appear in this phase's result at all. -/
def decompress_phase (entries : List (ChunkDesc × Compression))
    (pages : List PageInfo) : DecompressOut :=
  let scans := g_supportedCodecs.map (fun codec => codec_scan_one codec entries pages)
  let total := (scans.map Prod.snd).sum
  let ncp := (scans.map Prod.fst).sum
  { total_decompressed_size := total,
    num_compressed_pages := ncp,
    codec_page_cnt := scans.map Prod.fst,
    allocs := if 0 < ncp then
        [.inflateIn ncp, .inflateOut ncp, .decompressed total]
      else [] }

/-- Modelled from the spec: `get_column_byte_width` (a gdf utility outside
the sources at hand) — the element byte width of each non-string output
dtype; it fails on `GDF_invalid` (and is never consulted for strings, which
the allocator special-cases first). -/
def dtype_byte_width : GdfDtype → Option Nat
  | .GDF_INT8 => some 1
  | .GDF_INT16 => some 2
  | .GDF_INT32 => some 4
  | .GDF_INT64 => some 8
  | .GDF_FLOAT32 => some 4
  | .GDF_FLOAT64 => some 8
  | .GDF_DATE32 => some 4
  | .GDF_DATE64 => some 8
  | .GDF_STRING => none
  | .GDF_invalid => none

/-- Modelled from the spec: `gdf_get_num_chars_bitmask` — the byte length of
a validity bitmap for `n` bit-packed rows. -/
def gdf_get_num_chars_bitmask (n : Nat) : Nat := (n + 7) / 8

/-- Modelled from the spec: `sizeof(parquet::gpu::nvstrdesc_s)` — the
(pointer, length) string descriptor pair, 16 bytes. -/
def nvstrdesc_size : Nat := 16

/-- Output Column Allocator (`gdf_columns::alloc_column_data`, reader lines
318-337): for every column, allocate `max(size, 1) × byte-width` data bytes
(strings use the fixed nvstrdesc width) and a zero-initialized validity
bitmap.  A dtype without a byte width makes the whole call fail, which
`GDF_TRY` at line 687 propagates. -/
def alloc_column_data (cols : List GdfColumn) : Option (List AllocEvent) :=
  cols.foldl
    (fun (acc : Option (List AllocEvent)) c =>
      acc.bind fun evs =>
        let num_rows := max c.size 1
        let num_masks := gdf_get_num_chars_bitmask num_rows
        (if c.dtype = .GDF_STRING then some nvstrdesc_size else dtype_byte_width c.dtype).bind
          fun w => some (evs ++ [.columnData (num_rows * w), .columnValid num_masks]))
    (some [])

/-- Whether a chunk is a dictionary-bearing string chunk in the source's
sense (reader lines 694, 710): its schema entry's physical type is
`BYTE_ARRAY` and pass 1 discovered at least one dictionary page. -/
def is_dict_str_chunk (schema : List SchemaElt) (c : ChunkDesc)
    (meta : ColumnChunkMeta) : Bool :=
  (schema.getD meta.schema_idx dSchema).type = .BYTE_ARRAY && 0 < c.num_dict_pages

/-- String-dictionary entry counting (reader lines 690-699): walk the chunks
with a running flat page offset; for every dictionary-bearing string chunk
add the value count of its first page (the source's documented
dictionary-page-is-first-page assumption). -/
def dict_count_step (schema : List SchemaElt) (pages : List PageInfo)
    (st : Nat × Nat) (e : ChunkDesc × ColumnChunkMeta) : Nat × Nat :=
  let (total, page_cnt) := st
  (if is_dict_str_chunk schema e.1 e.2 then
     total + (pages.getD page_cnt dPage).num_values
   else total,
   page_cnt + e.1.max_num_pages)

/-- The accumulated dictionary-entry total of the counting loop. -/
def count_str_indices (schema : List SchemaElt)
    (entries : List (ChunkDesc × ColumnChunkMeta)) (pages : List PageInfo) : Nat :=
  (entries.foldl (dict_count_step schema pages) (0, 0)).1

/-- The dictionary-index allocation (reader lines 701-704): performed, at
exactly the counted size, only when the count is positive. -/
def dict_alloc (schema : List SchemaElt)
    (entries : List (ChunkDesc × ColumnChunkMeta)) (pages : List PageInfo) :
    List AllocEvent :=
  let tsi := count_str_indices schema entries pages
  if 0 < tsi then [.dictIndex tsi] else []

/-- Dictionary-index wiring (reader lines 706-718) from running flat page
offset `page_cnt` and running dictionary offset `str_ofs`: every
dictionary-bearing string chunk's `str_dict_index` is pointed at the current
offset of the shared index array, which then advances by the chunk's
first-page value count.  Also returns the (offset, length) layout of the
per-chunk slices, in chunk order.  (The same loop wires each chunk's
data/validity destination pointers to its output column; those device
pointers are not modelled.) -/
def wire_dict_from (schema : List SchemaElt) (pages : List PageInfo)
    (page_cnt str_ofs : Nat) :
    List (ChunkDesc × ColumnChunkMeta) → List ChunkDesc × List (Nat × Nat)
  | [] => ([], [])
  | e :: rest =>
    if is_dict_str_chunk schema e.1 e.2 then
      let len := (pages.getD page_cnt dPage).num_values
      let (cs, ls) :=
        wire_dict_from schema pages (page_cnt + e.1.max_num_pages) (str_ofs + len) rest
      ({ e.1 with str_dict_index := some str_ofs } :: cs, (str_ofs, len) :: ls)
    else
      let (cs, ls) :=
        wire_dict_from schema pages (page_cnt + e.1.max_num_pages) str_ofs rest
      (e.1 :: cs, ls)

/-- The first-page value counts of the dictionary-bearing string chunks, in
chunk order, from running flat page offset `page_cnt` (the lengths of the
dictionary-index slices the source hands out). -/
def qual_lens (schema : List SchemaElt) (pages : List PageInfo) (page_cnt : Nat) :
    List (ChunkDesc × ColumnChunkMeta) → List Nat
  | [] => []
  | e :: rest =>
    if is_dict_str_chunk schema e.1 e.2 then
      (pages.getD page_cnt dPage).num_values ::
        qual_lens schema pages (page_cnt + e.1.max_num_pages) rest
    else qual_lens schema pages (page_cnt + e.1.max_num_pages) rest

/-- Contiguous layout of slices with the given lengths, starting at `ofs`:
each slice begins where the previous one ends. -/
def mk_layout (ofs : Nat) : List Nat → List (Nat × Nat)
  | [] => []
  | l :: ls => (ofs, l) :: mk_layout (ofs + l) ls

/-- The output-column index owning a page (reader lines 735-736): the page's
`chunk_idx` (as written by the kernels) guarded against `[0, num_chunks)`,
then resolved through the chunk-to-column side table. -/
def pageOwner (chunk_map : List Nat) (p : PageInfo) : Option Nat :=
  if 0 ≤ p.chunk_idx ∧ p.chunk_idx < (chunk_map.length : Int) then
    chunk_map[p.chunk_idx.toNat]?
  else none

/-- Add `d` to the null count of column `k` (reader line 737). -/
def add_null (cols : List GdfColumn) (k : Nat) (d : Int) : List GdfColumn :=
  match cols[k]? with
  | some c => cols.set k { c with null_count := c.null_count + d }
  | none => cols

/-- Null aggregation (reader lines 732-740): for every page with a non-zero
row count whose chunk index passes the range guard, accumulate
`num_rows - valid_count` into the null count of the output column owned by
that page's chunk. -/
def null_step (chunk_map : List Nat) (cs : List GdfColumn) (p : PageInfo) :
    List GdfColumn :=
  if p.num_rows ≠ 0 then
    match pageOwner chunk_map p with
    | some k => add_null cs k (p.num_rows - p.valid_count)
    | none => cs
  else cs

/-- The whole null-aggregation loop. -/
def aggregate_nulls (chunk_map : List Nat) (cols : List GdfColumn)
    (pages : List PageInfo) : List GdfColumn :=
  pages.foldl (null_step chunk_map) cols

/-- The 8-byte structure at the end of the file: the 4-byte little-endian
footer length and the trailing 4-byte magic (`parquet::file_ender_s`,
modelled from the spec). -/
structure FileEnder where
  footer_len : Nat
  magic : Nat
  deriving Repr, DecidableEq

/-- The raw loaded file, abstracted to the fields the validation prologue
interprets: total byte size, the 4-byte magic at offset 0
(`parquet::file_header_s`), and the trailing ender structure. -/
structure RawFile where
  size : Nat
  header_magic : Nat
  ender : FileEnder
  deriving Repr, DecidableEq

/-- Outcome of a read call.  `hostFault` marks an out-of-bounds host-memory
access the source performs (undefined behavior), `emptySuccess` the early
`GDF_SUCCESS` return of line 450 that materializes nothing, `dtypeError`
the propagated failure of the column allocator. -/
inductive ReadResult
  | success (cols : List GdfColumn) (num_rows : Nat) (index_col : Option Nat)
  | fileError
  | datasetEmpty
  | emptySuccess
  | hostFault
  | dtypeError
  deriving Repr, DecidableEq

/-- The Decode Engine's outputs, supplied to the model as inputs: the pass-1
per-chunk page counts, the pass-2 page-info array, the per-page
decompression statuses (in batch layout order), and the page-info array as
left by `DecodePageData`.  `inflate_status` is consumed by nothing: the
source only prints anomalous statuses (lines 670-674). -/
structure KernelOut where
  pass1 : List (Nat × Nat)
  pass2 : List PageInfo
  inflate_status : List Int
  decoded : List PageInfo
  deriving Repr

/-- A kernel-written array of exactly `n` page records (entries the kernel
did not write stay default-initialized). -/
def pad_pages (n : Nat) (l : List PageInfo) : List PageInfo :=
  (List.range n).map (fun i => l.getD i dPage)

/-- The pipeline from chunk building to the final success return (reader
lines 479-753), given the initialized output columns: build the chunk
descriptors, run header-decode pass 1, and if any page exists allocate and
populate the page-info array and size/allocate the decompression buffers;
allocate the column data, count and wire the string dictionaries, decode
page data and aggregate null counts; finally transfer ownership.  Every
error that the source actually propagates travels through the result;
the decompression statuses influence nothing. -/
def read_body (md : FileMetaData) (columns0 : List GdfColumn) (index_col : Int)
    (ko : KernelOut) : ReadResult × List AllocEvent :=
  let num_columns := columns0.length
  let max_num_chunks := md.row_groups.length * num_columns
  let bo := build_chunks md.row_groups md.schema columns0 max_num_chunks
  let chunks1 := apply_pass1 bo.chunks ko.pass1
  let tp := total_pages chunks1
  let (chunks2, pages1, phAllocs, dAllocs) :=
    if 0 < tp then
      let wired := wire_pages chunks1
      let pages := pad_pages tp ko.pass2
      let dec := decompress_phase (wired.zip (bo.chunk_map.map (fun e => e.1.codec))) pages
      (wired, pages, ([AllocEvent.pageInfos tp] : List AllocEvent), dec.allocs)
    else (chunks1, [], [], [])
  match alloc_column_data columns0 with
  | none => (.dtypeError, [AllocEvent.chunkDescs max_num_chunks] ++ bo.allocs ++ phAllocs ++ dAllocs)
  | some colAllocs =>
    let entries := chunks2.zip (bo.chunk_map.map Prod.fst)
    let dictAllocs := dict_alloc md.schema entries pages1
    let chunks3 := (wire_dict_from md.schema pages1 0 0 entries).1
    let pages2 := if 0 < tp then pad_pages tp ko.decoded else pages1
    let colsF := if 0 < tp then aggregate_nulls (bo.chunk_map.map Prod.snd) columns0 pages2
                 else columns0
    (.success colsF bo.num_rows (if index_col ≠ -1 then some index_col.toNat else none),
     [AllocEvent.chunkDescs max_num_chunks] ++ bo.allocs ++ phAllocs ++ dAllocs ++
       colAllocs ++ dictAllocs)

/-- Caller-facing input arguments (`pq_read_arg`): the optional column-name
allow-list. -/
structure ReadArgs where
  use_cols : Option (List String)
  deriving Repr

/-- The read after the validation prologue (reader lines 409-753):
`print_metadata` (line 416) reads `row_groups[0]` unconditionally, an
out-of-bounds access (`hostFault`) whenever the row-group list is empty;
then the empty-dataset check, column selection, the early empty-selection
success return, column initialization, and the pipeline body. -/
def read_after_prologue (file_md : FileMetaData) (index_col_name : String)
    (args : ReadArgs) (ko : KernelOut) : ReadResult × List AllocEvent :=
  match file_md.row_groups[0]? with
  | none => (.hostFault, [])
  | some rg0 =>
    if rg0.columns.length = 0 then (.datasetEmpty, [])
    else
      let col_indexes := select_columns rg0.columns args.use_cols index_col_name
      if col_indexes.isEmpty then (.emptySuccess, [])
      else
        match init_columns_defacto file_md index_col_name col_indexes with
        | none => (.hostFault, [])
        | some st => read_body file_md st.1 st.2 ko

/-- `read_parquet` (reader lines 352-753).  `parse` is the external metadata
parser's verdict on the footer bytes (`cp.read`); on `none` the source only
logs and proceeds with the default-constructed `file_md`.  `index_col_name`
is the index-column hint `get_index_col` extracts from the pandas key-value
metadata (a string scan orthogonal to the pipeline, taken here as an input).
The validation prologue (lines 386-407) checks the size, both magic values
and the footer-length bounds before the parser's verdict is even consulted
and before any allocation event can occur. -/
def read_parquet (f : RawFile) (parse : Option FileMetaData) (index_col_name : String)
    (args : ReadArgs) (ko : KernelOut) : ReadResult × List AllocEvent :=
  if f.size < file_header_size + file_ender_size then (.fileError, [])
  else if f.header_magic ≠ PARQUET_MAGIC ∨ f.ender.magic ≠ PARQUET_MAGIC then
    (.fileError, [])
  else if f.ender.footer_len > f.size - file_header_size - file_ender_size
          ∨ f.ender.footer_len = 0 then
    (.fileError, [])
  else read_after_prologue (parse.getD dMD) index_col_name args ko

/-! Concrete inputs for the scenarios exercised by the claims. -/

/-- An INT32 schema element with no levels. -/
def sInt32 : SchemaElt :=
  { type := .INT32, converted_type := .OTHER, max_definition_level := 0,
    max_repetition_level := 0, type_length := 0 }

/-- A column-chunk record with the given name path and schema link, using no
compression and carrying no bytes (offsets are irrelevant to the claims). -/
def mkCol (name : String) (idx : Nat) : ColumnChunkMeta :=
  { path_in_schema := [name], codec := .UNCOMPRESSED, total_compressed_size := 0,
    num_values := 10, data_page_offset := 4, dictionary_page_offset := 0,
    schema_idx := idx }

/-- Scenario C's single row group: columns "a", "b", "idx", 10 rows. -/
def rgScenC : RowGroup :=
  { columns := [mkCol "a" 0, mkCol "b" 1, mkCol "idx" 2], num_rows := 10 }

/-- Scenario C's metadata: a 3-column file ("a", "b", "idx"), one row group,
10 rows. -/
def mdScenC : FileMetaData :=
  { schema := [sInt32, sInt32, sInt32], row_groups := [rgScenC], num_rows := 10 }

/-- A raw file whose prologue is valid: 1000 bytes, both magics in place,
100-byte footer. -/
def fGood : RawFile :=
  { size := 1000, header_magic := PARQUET_MAGIC,
    ender := { footer_len := 100, magic := PARQUET_MAGIC } }

/-- Kernel outputs for runs that never reach a kernel. -/
def koNone : KernelOut := { pass1 := [], pass2 := [], inflate_status := [], decoded := [] }

/-- A single GZIP-compressed column chunk named "a": 10 values, 64
compressed bytes. -/
def colGz : ColumnChunkMeta :=
  { path_in_schema := ["a"], codec := .GZIP, total_compressed_size := 64,
    num_values := 10, data_page_offset := 4, dictionary_page_offset := 0,
    schema_idx := 0 }

/-- Metadata with one row group holding the one GZIP chunk, 10 rows. -/
def mdGz : FileMetaData :=
  { schema := [sInt32], row_groups := [{ columns := [colGz], num_rows := 10 }],
    num_rows := 10 }

/-- The single page of the GZIP chunk as pass 2 reports it: 64 compressed
bytes inflating to 128. -/
def pgGz : PageInfo :=
  { chunk_idx := 0, chunk_row := 0, flags := 0, num_values := 10, encoding := 0,
    compressed_page_size := 64, uncompressed_page_size := 128, num_rows := 0,
    valid_count := 0 }

/-- Kernel outputs for the GZIP read: one data page, a decompression status
of −1000 (failure) for it, and a fully valid decode. -/
def koGz : KernelOut :=
  { pass1 := [(1, 0)], pass2 := [pgGz], inflate_status := [-1000],
    decoded := [{ pgGz with num_rows := 10, valid_count := 10 }] }

/-- An uncompressed column chunk named "a" with 5 values. -/
def colA5 : ColumnChunkMeta :=
  { path_in_schema := ["a"], codec := .UNCOMPRESSED, total_compressed_size := 0,
    num_values := 5, data_page_offset := 4, dictionary_page_offset := 0,
    schema_idx := 0 }

/-- Metadata whose second row group carries two chunks both named "a": the
selected-column count is 1 (from row group 0), so the descriptor capacity
is 2 row groups × 1 column = 2, while 3 chunks match. -/
def mdOverflow : FileMetaData :=
  { schema := [sInt32],
    row_groups := [{ columns := [colA5], num_rows := 5 },
                   { columns := [colA5, colA5], num_rows := 5 }],
    num_rows := 10 }

/-- The output-column array of the overflow read (what the de-facto column
initialization produces for it). -/
def colsOverflow : List GdfColumn :=
  [{ name := "a", dtype := .GDF_INT32, dtype_info := .TIME_UNIT_NONE,
     size := 10, null_count := 0 }]

/-- One data page per surviving chunk of the overflow read. -/
def pgA (ck : Int) : PageInfo :=
  { chunk_idx := ck, chunk_row := 0, flags := 0, num_values := 5, encoding := 0,
    compressed_page_size := 32, uncompressed_page_size := 32, num_rows := 0,
    valid_count := 0 }

/-- Kernel outputs for the overflow read: one data page per chunk, all rows
valid after decode. -/
def koOverflow : KernelOut :=
  { pass1 := [(1, 0), (1, 0)], pass2 := [pgA 0, pgA 1], inflate_status := [],
    decoded := [{ pgA 0 with num_rows := 5, valid_count := 5 },
                { pgA 1 with num_rows := 5, valid_count := 5 }] }

/-! Claim theorems. -/

/-- C1: on Scenario C (3-column file "a","b","idx", index hint "idx",
allow-list ["a"]) the Column Selector does pick exactly "a" plus the index
column, in file order, count 2 — but the column-initialization loop then
runs over the vector that line 458 already cleared, so every output
column's name and mapped type is read out of bounds (modelled as `none`)
instead of from the selected columns. -/
theorem scenarioC_select_ok_but_init_reads_cleared_list :
    select_columns rgScenC.columns (some ["a"]) "idx" = [0, 2] ∧
    (select_columns rgScenC.columns (some ["a"]) "idx").map
        (fun i => to_dot_string ((rgScenC.columns.getD i dChunkMeta).path_in_schema))
      = ["a", "idx"] ∧
    init_columns mdScenC "idx" (select_columns rgScenC.columns (some ["a"]) "idx")
      = none := by
  decide

/-- C2: a file that passes every prologue check but whose footer bytes the
metadata parser rejects is not turned into a hard failure: the source logs
the parse error and proceeds with the untouched default `file_md`, upon
which `print_metadata` immediately indexes the empty row-group vector out
of bounds (a crash in practice) — the parse failure is never propagated. -/
theorem metadata_parse_failure_not_propagated :
    read_parquet fGood none "idx" { use_cols := none } koNone
      = (.hostFault, []) := by
  decide

/-- C3: a read whose single (GZIP-compressed) page reports decompression
status −1000 still returns a fully successful result: the source only
prints anomalous statuses (lines 670-674) and no status value can reach
the result. -/
theorem bad_decompress_status_still_success :
    koGz.inflate_status = [-1000] ∧
    (read_parquet fGood (some mdGz) "" { use_cols := none } koGz).1
      = .success [{ name := "a", dtype := .GDF_INT32, dtype_info := .TIME_UNIT_NONE,
                    size := 10, null_count := 0 }] 10 none := by
  constructor
  · rfl
  · decide

/-- C4: with 3 matching (row-group, selected-column) chunks and a
preallocated capacity of 2 (two row groups × one selected column, the
second row group carrying two chunks named "a"), the builder silently
drops the third match — only "Too many chunks!!!" is printed — and the
read still returns success instead of a hard error. -/
theorem chunk_capacity_overflow_silently_drops :
    (build_chunks mdOverflow.row_groups mdOverflow.schema colsOverflow 100).chunks.length
      = 3 ∧
    (build_chunks mdOverflow.row_groups mdOverflow.schema colsOverflow 2).chunks.length
      = 2 ∧
    (build_chunks mdOverflow.row_groups mdOverflow.schema colsOverflow 2).dropped = 1 ∧
    (read_parquet fGood (some mdOverflow) "" { use_cols := none } koOverflow).1
      = .success colsOverflow 10 none := by
  decide

/-- C5: any input whose header or trailing magic differs from the fixed
4-byte value, or whose footer-length field violates
`0 < footerLen ≤ fileSize − 8`, yields the format error — for every
possible parser verdict (so the parser is never needed) and with an empty
allocation log (so no accelerator resource was touched).  The source's own
bound, `footerLen ≤ fileSize − 12`, is stricter than the spec's, so every
spec-violating input is rejected. -/
theorem format_errors_fail_before_parse_and_alloc
    (f : RawFile) (parse : Option FileMetaData) (icn : String)
    (args : ReadArgs) (ko : KernelOut)
    (h : f.header_magic ≠ PARQUET_MAGIC ∨ f.ender.magic ≠ PARQUET_MAGIC ∨
         f.ender.footer_len = 0 ∨ f.size - file_ender_size < f.ender.footer_len) :
    read_parquet f parse icn args ko = (.fileError, []) := by
  unfold read_parquet
  by_cases h1 : f.size < file_header_size + file_ender_size
  · rw [if_pos h1]
  · rw [if_neg h1]
    by_cases h2 : f.header_magic ≠ PARQUET_MAGIC ∨ f.ender.magic ≠ PARQUET_MAGIC
    · rw [if_pos h2]
    · rw [if_neg h2]
      have h3 : f.ender.footer_len > f.size - file_header_size - file_ender_size
          ∨ f.ender.footer_len = 0 := by
        rcases h with h | h | h | h
        · exact absurd (Or.inl h) h2
        · exact absurd (Or.inr h) h2
        · exact Or.inr h
        · left
          have hs : file_header_size + file_ender_size ≤ f.size := Nat.le_of_not_lt h1
          simp only [file_header_size, file_ender_size] at hs h ⊢
          omega
      rw [if_pos h3]

/-- A raw file whose header magic is wrong. -/
def fBadMagic : RawFile :=
  { size := 1000, header_magic := 5, ender := { footer_len := 100, magic := PARQUET_MAGIC } }

/-- Witness for C5: the bad-magic file is rejected with the format error,
an empty allocation log, and independently of the parser. -/
theorem format_errors_witness :
    (fBadMagic.header_magic ≠ PARQUET_MAGIC ∨ fBadMagic.ender.magic ≠ PARQUET_MAGIC ∨
       fBadMagic.ender.footer_len = 0 ∨
       fBadMagic.size - file_ender_size < fBadMagic.ender.footer_len) ∧
    read_parquet fBadMagic (some mdScenC) "idx" { use_cols := none } koNone
      = (.fileError, []) :=
  ⟨Or.inl (by decide),
   format_errors_fail_before_parse_and_alloc fBadMagic (some mdScenC) "idx"
     { use_cols := none } koNone (Or.inl (by decide))⟩

/-- C10: after a valid prologue, (a) metadata whose first row group exists
but holds zero columns produces the distinct explicit `GDF_DATASET_EMPTY`
outcome, and (b) a selection that matches nothing produces the early
`GDF_SUCCESS` return that materializes no columns — an empty success, not
an error. -/
theorem empty_conditions_outcomes :
    (∀ (f : RawFile) (md : FileMetaData) (icn : String) (args : ReadArgs)
       (ko : KernelOut) (rg0 : RowGroup),
       ¬ (f.size < file_header_size + file_ender_size) →
       f.header_magic = PARQUET_MAGIC → f.ender.magic = PARQUET_MAGIC →
       ¬ (f.ender.footer_len > f.size - file_header_size - file_ender_size
            ∨ f.ender.footer_len = 0) →
       md.row_groups[0]? = some rg0 → rg0.columns = [] →
       read_parquet f (some md) icn args ko = (.datasetEmpty, [])) ∧
    (∀ (f : RawFile) (md : FileMetaData) (icn : String) (args : ReadArgs)
       (ko : KernelOut) (rg0 : RowGroup),
       ¬ (f.size < file_header_size + file_ender_size) →
       f.header_magic = PARQUET_MAGIC → f.ender.magic = PARQUET_MAGIC →
       ¬ (f.ender.footer_len > f.size - file_header_size - file_ender_size
            ∨ f.ender.footer_len = 0) →
       md.row_groups[0]? = some rg0 → rg0.columns ≠ [] →
       select_columns rg0.columns args.use_cols icn = [] →
       read_parquet f (some md) icn args ko = (.emptySuccess, [])) := by
  constructor
  · intro f md icn args ko rg0 h1 h2 h3 h4 hrg hcols
    unfold read_parquet
    rw [if_neg h1, if_neg (by simp [h2, h3]), if_neg h4]
    unfold read_after_prologue
    simp only [Option.getD_some, hrg]
    rw [hcols]
    rfl
  · intro f md icn args ko rg0 h1 h2 h3 h4 hrg hcols hsel
    unfold read_parquet
    rw [if_neg h1, if_neg (by simp [h2, h3]), if_neg h4]
    unfold read_after_prologue
    simp only [Option.getD_some, hrg]
    rw [if_neg (by simpa [List.length_eq_zero] using hcols), hsel]
    rfl

/-- Metadata whose only row group has zero columns. -/
def mdNoCols : FileMetaData :=
  { schema := [], row_groups := [{ columns := [], num_rows := 0 }], num_rows := 0 }

/-- Witness for C10: the zero-column row group yields the empty-dataset
outcome and a no-match allow-list yields the empty success. -/
theorem empty_conditions_witness :
    read_parquet fGood (some mdNoCols) "idx" { use_cols := none } koNone
      = (.datasetEmpty, []) ∧
    read_parquet fGood (some mdScenC) "" { use_cols := some ["zzz"] } koNone
      = (.emptySuccess, []) :=
  ⟨empty_conditions_outcomes.1 fGood mdNoCols "idx" { use_cols := none } koNone
     { columns := [], num_rows := 0 }
     (by decide) (by decide) (by decide) (by decide) (by decide) rfl,
   empty_conditions_outcomes.2 fGood mdScenC "" { use_cols := some ["zzz"] } koNone
     rgScenC
     (by decide) (by decide) (by decide) (by decide) (by decide) (by decide) (by decide)⟩

/-- The page-count accumulation from an arbitrary starting total. -/
theorem total_pages_foldl (cs : List ChunkDesc) (a : Nat) :
    cs.foldl (fun t c => t + pagesOf c) a = a + (cs.map pagesOf).sum := by
  induction cs generalizing a with
  | nil => simp
  | cons c r ih => simp [List.foldl_cons, ih, List.sum_cons]; omega

/-- The pass-1 total is the sum of the per-chunk discovered page counts. -/
theorem total_pages_eq_sum (cs : List ChunkDesc) :
    total_pages cs = (cs.map pagesOf).sum := by
  simpa using total_pages_foldl cs 0

/-- The partition loop started at offset `a` gives chunk `i` the offset
`a` plus the page counts of all earlier chunks, and sets its
`max_num_pages` to its own page count. -/
theorem wire_pages_from_get (cs : List ChunkDesc) :
    ∀ (a i : Nat), i < cs.length →
      (wire_pages_from a cs)[i]? = some { cs.getD i dChunk with
          max_num_pages := pagesOf (cs.getD i dChunk),
          page_info := some (a + ((cs.take i).map pagesOf).sum) } := by
  induction cs with
  | nil => intro a i h; simp at h
  | cons c r ih =>
    intro a i h
    cases i with
    | zero => simp [wire_pages_from]
    | succ j =>
      have hj : j < r.length := by simpa using h
      simp only [wire_pages_from, List.getElem?_cons_succ, List.getD_cons_succ,
        List.take_succ_cons, List.map_cons, List.sum_cons]
      rw [ih (a + pagesOf c) j hj]
      simp [Nat.add_assoc]

/-- C6 (amended: for every read whose pass-1 total is positive; when it is
zero the source skips the whole block at lines 561-684 and no page-info
array exists): the total measured after pass 1 equals the sum over the
descriptors of data plus dictionary page counts, the page-info array is
allocated exactly once with exactly that length, the array is partitioned
contiguously across chunks in chunk order — chunk `i` starts at the sum of
the earlier chunks' counts and spans its own count — and pass 2 receives
exactly the wired descriptors. -/
theorem page_info_alloc_and_partition (cs : List ChunkDesc)
    (pass2 : List ChunkDesc → List PageInfo) (h : 0 < total_pages cs) :
    total_pages cs = (cs.map pagesOf).sum ∧
    (page_header_phase cs pass2).allocs = [.pageInfos ((cs.map pagesOf).sum)] ∧
    (page_header_phase cs pass2).pages = pass2 (wire_pages cs) ∧
    (∀ i, i < cs.length →
      (wire_pages cs)[i]? = some { cs.getD i dChunk with
          max_num_pages := pagesOf (cs.getD i dChunk),
          page_info := some (((cs.take i).map pagesOf).sum) }) := by
  have ht : total_pages cs = (cs.map pagesOf).sum := total_pages_eq_sum cs
  have h' : 0 < (cs.map pagesOf).sum := ht ▸ h
  refine ⟨ht, ?_, ?_, ?_⟩
  · simp [page_header_phase, h, ht, h']
  · simp [page_header_phase, h]
  · intro i hi
    simpa [wire_pages] using wire_pages_from_get cs 0 i hi

/-- C6 counterexample: a read with a chunk but zero discovered pages (a
valid run per the spec's own §4.8) performs no page-info allocation at all,
refuting "allocated exactly once" as stated for every read. -/
theorem page_alloc_zero_pages_cex :
    ((read_parquet fGood (some mdGz) "" { use_cols := none } koNone).2.filter
        AllocEvent.isPageInfoAlloc).length ≠ 1 := by
  decide

/-- Two chunk descriptors as pass 1 leaves them: 2+1 and 0+3 pages. -/
def csPages : List ChunkDesc :=
  [{ dChunk with num_data_pages := 2, num_dict_pages := 1 },
   { dChunk with num_data_pages := 0, num_dict_pages := 3 }]

/-- Witness for C6: the two-chunk input has 6 pages and gets the single
6-entry page-info allocation. -/
theorem page_info_alloc_witness :
    0 < total_pages csPages ∧
    total_pages csPages = (csPages.map pagesOf).sum ∧
    (page_header_phase csPages (fun _ => [])).allocs = [.pageInfos 6] :=
  ⟨by decide,
   (page_info_alloc_and_partition csPages (fun _ => []) (by decide)).1,
   (page_info_alloc_and_partition csPages (fun _ => []) (by decide)).2.1⟩

/-- The page count one codec collects: the `max_num_pages` of its chunks. -/
def codec_cnt (codec : Compression) : List (ChunkDesc × Compression) → Nat
  | [] => 0
  | e :: r => (if e.2 = codec then e.1.max_num_pages else 0) + codec_cnt codec r

/-- The uncompressed volume one codec collects from running offset `ofs`:
the slice sums of its chunks' page ranges. -/
def codec_sz (codec : Compression) (pages : List PageInfo) :
    Nat → List (ChunkDesc × Compression) → Nat
  | _, [] => 0
  | ofs, e :: r =>
    (if e.2 = codec then slice_usum pages ofs e.1.max_num_pages else 0) +
      codec_sz codec pages (ofs + e.1.max_num_pages) r

/-- The uncompressed volume of every chunk's page range from running
offset `ofs`, regardless of codec. -/
def seq_sz (pages : List PageInfo) : Nat → List (ChunkDesc × Compression) → Nat
  | _, [] => 0
  | ofs, e :: r =>
    slice_usum pages ofs e.1.max_num_pages + seq_sz pages (ofs + e.1.max_num_pages) r

/-- Characterization of the codec loop's fold. -/
theorem codec_fold_spec (codec : Compression) (pages : List PageInfo) :
    ∀ (es : List (ChunkDesc × Compression)) (cnt sz ofs : Nat),
      es.foldl (codec_step codec pages) (cnt, sz, ofs) =
        (cnt + codec_cnt codec es, sz + codec_sz codec pages ofs es,
         ofs + (es.map (fun e => e.1.max_num_pages)).sum) := by
  intro es
  induction es with
  | nil => intro cnt sz ofs; simp [codec_cnt, codec_sz]
  | cons e r ih =>
    intro cnt sz ofs
    by_cases hc : e.2 = codec <;>
      simp [List.foldl_cons, codec_step, hc, ih, codec_cnt, codec_sz,
        List.sum_cons, Prod.ext_iff] <;>
      omega

/-- One codec-loop iteration computes exactly its codec's count and volume. -/
theorem codec_scan_one_eq (codec : Compression) (pages : List PageInfo)
    (es : List (ChunkDesc × Compression)) :
    codec_scan_one codec es pages = (codec_cnt codec es, codec_sz codec pages 0 es) := by
  show ((es.foldl (codec_step codec pages) (0, 0, 0)).1,
        (es.foldl (codec_step codec pages) (0, 0, 0)).2.1)
      = (codec_cnt codec es, codec_sz codec pages 0 es)
  rw [codec_fold_spec]
  simp

/-- When every chunk uses one of the two supported codecs, the two codec
counts together cover every page exactly once. -/
theorem codec_cnt_partition (es : List (ChunkDesc × Compression))
    (hc : ∀ e ∈ es, e.2 = .GZIP ∨ e.2 = .SNAPPY) :
    codec_cnt .GZIP es + codec_cnt .SNAPPY es
      = (es.map (fun e => e.1.max_num_pages)).sum := by
  induction es with
  | nil => simp [codec_cnt]
  | cons e r ih =>
    have he := hc e (List.mem_cons_self e r)
    have hr : ∀ x ∈ r, x.2 = .GZIP ∨ x.2 = .SNAPPY :=
      fun x hx => hc x (List.mem_cons_of_mem e hx)
    have ihh := ih hr
    rcases he with he | he <;>
      simp [codec_cnt, he, List.sum_cons] <;> omega

/-- When every chunk uses one of the two supported codecs, the two codec
volumes together cover every chunk's slice exactly once. -/
theorem codec_sz_partition (pages : List PageInfo) :
    ∀ (es : List (ChunkDesc × Compression)) (ofs : Nat),
      (∀ e ∈ es, e.2 = .GZIP ∨ e.2 = .SNAPPY) →
      codec_sz .GZIP pages ofs es + codec_sz .SNAPPY pages ofs es
        = seq_sz pages ofs es := by
  intro es
  induction es with
  | nil => intro ofs _; simp [codec_sz, seq_sz]
  | cons e r ih =>
    intro ofs hc
    have he := hc e (List.mem_cons_self e r)
    have hr : ∀ x ∈ r, x.2 = .GZIP ∨ x.2 = .SNAPPY :=
      fun x hx => hc x (List.mem_cons_of_mem e hx)
    have ihh := ih (ofs + e.1.max_num_pages) hr
    rcases he with he | he <;>
      simp [codec_sz, seq_sz, he] <;> omega

/-- Folding uncompressed sizes from an arbitrary start. -/
theorem usum_foldl (l : List PageInfo) (a : Nat) :
    l.foldl (fun a p => a + p.uncompressed_page_size) a = a + usum l := by
  induction l generalizing a with
  | nil => simp [usum]
  | cons p r ih => simp [usum, List.foldl_cons, ih, List.sum_cons]; omega

/-- A slice sum is the volume of the corresponding sublist. -/
theorem slice_usum_eq (pages : List PageInfo) (ofs cnt : Nat) :
    slice_usum pages ofs cnt = usum ((pages.drop ofs).take cnt) := by
  simpa using usum_foldl ((pages.drop ofs).take cnt) 0

/-- Volume of an appended page list. -/
theorem usum_append (a b : List PageInfo) : usum (a ++ b) = usum a + usum b := by
  simp [usum]

/-- The chunk-ordered slice sums from offset `ofs` cover precisely the next
`Σ max_num_pages` pages. -/
theorem seq_sz_eq (pages : List PageInfo) :
    ∀ (es : List (ChunkDesc × Compression)) (ofs : Nat),
      seq_sz pages ofs es
        = usum ((pages.drop ofs).take ((es.map (fun e => e.1.max_num_pages)).sum)) := by
  intro es
  induction es with
  | nil => intro ofs; simp [seq_sz, usum]
  | cons e r ih =>
    intro ofs
    simp only [seq_sz, List.map_cons, List.sum_cons]
    rw [ih (ofs + e.1.max_num_pages), slice_usum_eq, List.take_add, usum_append]
    congr 2
    rw [List.drop_drop, Nat.add_comm]

/-- C8 (amended: for every read whose chunks use only supported codecs and
that has at least one page — a read with zero pages skips the decompression
block and allocates no buffer): every page is counted as a compressed page
exactly once, and the dispatcher performs the single shared
decompressed-data buffer allocation sized to the sum of the uncompressed
page sizes over all (compressed) pages, alongside the in/out descriptor
arrays. -/
theorem decompressed_buffer_single_alloc (es : List (ChunkDesc × Compression))
    (pages : List PageInfo)
    (hc : ∀ e ∈ es, e.2 = .GZIP ∨ e.2 = .SNAPPY)
    (hlen : (es.map (fun e => e.1.max_num_pages)).sum = pages.length)
    (hpos : 0 < pages.length) :
    (decompress_phase es pages).num_compressed_pages = pages.length ∧
    (decompress_phase es pages).total_decompressed_size = usum pages ∧
    (decompress_phase es pages).allocs =
      [.inflateIn pages.length, .inflateOut pages.length, .decompressed (usum pages)] := by
  have hcnt : codec_cnt .GZIP es + codec_cnt .SNAPPY es = pages.length := by
    rw [codec_cnt_partition es hc, hlen]
  have hsz : codec_sz .GZIP pages 0 es + codec_sz .SNAPPY pages 0 es = usum pages := by
    rw [codec_sz_partition pages es 0 hc, seq_sz_eq, hlen]
    simp
  have hncp : (decompress_phase es pages).num_compressed_pages = pages.length := by
    simp [decompress_phase, g_supportedCodecs, codec_scan_one_eq]
    omega
  have htot : (decompress_phase es pages).total_decompressed_size = usum pages := by
    simp [decompress_phase, g_supportedCodecs, codec_scan_one_eq]
    omega
  refine ⟨hncp, htot, ?_⟩
  have hpos' : 0 < codec_cnt .GZIP es ∨ 0 < codec_cnt .SNAPPY es := by omega
  simp [decompress_phase, g_supportedCodecs, codec_scan_one_eq, hpos']
  exact ⟨hcnt, hsz⟩

/-- C8 counterexample: a read whose only chunk uses a supported codec
(GZIP) but which discovers zero pages allocates no decompressed-data
buffer at all, refuting "exactly one shared buffer is allocated" as stated
for every only-supported-codec read. -/
theorem decompress_alloc_zero_pages_cex :
    ((read_parquet fGood (some mdGz) "" { use_cols := none } koNone).2.filter
        AllocEvent.isDecompBuffer).length ≠ 1 := by
  decide

/-- A GZIP chunk spanning one page and a SNAPPY chunk spanning two. -/
def esMixed : List (ChunkDesc × Compression) :=
  [({ dChunk with max_num_pages := 1 }, .GZIP),
   ({ dChunk with max_num_pages := 2 }, .SNAPPY)]

/-- Three pages with uncompressed sizes 100, 50, 25. -/
def pagesMixed : List PageInfo :=
  [{ dPage with uncompressed_page_size := 100 },
   { dPage with uncompressed_page_size := 50 },
   { dPage with uncompressed_page_size := 25 }]

/-- Witness for C8: the mixed GZIP/SNAPPY input with three pages gets one
175-byte decompressed buffer. -/
theorem decompressed_buffer_witness :
    (∀ e ∈ esMixed, e.2 = Compression.GZIP ∨ e.2 = Compression.SNAPPY) ∧
    (decompress_phase esMixed pagesMixed).allocs =
      [.inflateIn 3, .inflateOut 3, .decompressed 175] :=
  ⟨by decide,
   (decompressed_buffer_single_alloc esMixed pagesMixed (by decide) (by decide)
      (by decide)).2.2⟩

/-- Characterization of the dictionary-counting fold. -/
theorem dict_count_fold (schema : List SchemaElt) (pages : List PageInfo) :
    ∀ (es : List (ChunkDesc × ColumnChunkMeta)) (t pc : Nat),
      es.foldl (dict_count_step schema pages) (t, pc) =
        (t + (qual_lens schema pages pc es).sum,
         pc + (es.map (fun e => e.1.max_num_pages)).sum) := by
  intro es
  induction es with
  | nil => intro t pc; simp [qual_lens]
  | cons e r ih =>
    intro t pc
    by_cases hq : is_dict_str_chunk schema e.1 e.2 <;>
      simp [List.foldl_cons, dict_count_step, hq, ih, qual_lens, List.sum_cons,
        Prod.ext_iff] <;>
      omega

/-- The counted dictionary-entry total is the sum of the qualifying chunks'
first-page value counts. -/
theorem count_str_indices_eq (schema : List SchemaElt)
    (es : List (ChunkDesc × ColumnChunkMeta)) (pages : List PageInfo) :
    count_str_indices schema es pages = (qual_lens schema pages 0 es).sum := by
  show (es.foldl (dict_count_step schema pages) (0, 0)).1
      = (qual_lens schema pages 0 es).sum
  rw [dict_count_fold]
  simp

/-- The wiring loop hands out exactly the contiguous layout of the
qualifying lengths. -/
theorem wire_dict_layout (schema : List SchemaElt) (pages : List PageInfo) :
    ∀ (es : List (ChunkDesc × ColumnChunkMeta)) (pc so : Nat),
      (wire_dict_from schema pages pc so es).2
        = mk_layout so (qual_lens schema pages pc es) := by
  intro es
  induction es with
  | nil => intro pc so; simp [wire_dict_from, qual_lens, mk_layout]
  | cons e r ih =>
    intro pc so
    by_cases hq : is_dict_str_chunk schema e.1 e.2 <;>
      simp [wire_dict_from, qual_lens, hq, mk_layout, ih]

/-- The wired `str_dict_index` pointers of the qualifying chunks, in chunk
order, are exactly the layout's slice offsets. -/
theorem wire_dict_offsets (schema : List SchemaElt) (pages : List PageInfo) :
    ∀ (es : List (ChunkDesc × ColumnChunkMeta)) (pc so : Nat),
      (((wire_dict_from schema pages pc so es).1.zip es).filter
          (fun pe => is_dict_str_chunk schema pe.2.1 pe.2.2)).map
        (fun pe => pe.1.str_dict_index)
        = (mk_layout so (qual_lens schema pages pc es)).map (fun p => some p.1) := by
  intro es
  induction es with
  | nil => intro pc so; simp [wire_dict_from, qual_lens, mk_layout]
  | cons e r ih =>
    intro pc so
    by_cases hq : is_dict_str_chunk schema e.1 e.2 <;>
      simp [wire_dict_from, qual_lens, hq, mk_layout, List.zip_cons_cons,
        List.filter_cons, ih]

/-- Slice `j` of a contiguous layout starts at the sum of the earlier
lengths and has the `j`-th length. -/
theorem mk_layout_get :
    ∀ (ls : List Nat) (a j : Nat), j < ls.length →
      (mk_layout a ls)[j]? = some (a + (ls.take j).sum, ls.getD j 0) := by
  intro ls
  induction ls with
  | nil => intro a j h; simp at h
  | cons l r ih =>
    intro a j h
    cases j with
    | zero => simp [mk_layout]
    | succ i =>
      have hi : i < r.length := by simpa using h
      simp only [mk_layout, List.getElem?_cons_succ, List.getD_cons_succ,
        List.take_succ_cons, List.map_cons, List.sum_cons]
      rw [ih (a + l) i hi]
      simp [Nat.add_assoc]

/-- C9: the dictionary-index total equals the sum, over the
dictionary-bearing string-typed chunks (physical type `BYTE_ARRAY` with at
least one dictionary page), of the first page's value count; the index
array, allocated at exactly that size whenever it is positive, is handed
out to those chunks as contiguous slices in chunk order — each chunk's
`str_dict_index` pointer is its slice's offset and each slice's length is
that chunk's first-page value count. -/
theorem string_dict_index_sizing_and_wiring (schema : List SchemaElt)
    (entries : List (ChunkDesc × ColumnChunkMeta)) (pages : List PageInfo)
    (hlen : (entries.map (fun e => e.1.max_num_pages)).sum = pages.length) :
    count_str_indices schema entries pages = (qual_lens schema pages 0 entries).sum ∧
    (wire_dict_from schema pages 0 0 entries).2
      = mk_layout 0 (qual_lens schema pages 0 entries) ∧
    (((wire_dict_from schema pages 0 0 entries).1.zip entries).filter
        (fun pe => is_dict_str_chunk schema pe.2.1 pe.2.2)).map
      (fun pe => pe.1.str_dict_index)
      = (mk_layout 0 (qual_lens schema pages 0 entries)).map (fun p => some p.1) ∧
    (∀ j, j < (qual_lens schema pages 0 entries).length →
      (mk_layout 0 (qual_lens schema pages 0 entries))[j]? =
        some (((qual_lens schema pages 0 entries).take j).sum,
              (qual_lens schema pages 0 entries).getD j 0)) ∧
    dict_alloc schema entries pages =
      (if 0 < (qual_lens schema pages 0 entries).sum then
        [AllocEvent.dictIndex ((qual_lens schema pages 0 entries).sum)]
       else []) := by
  refine ⟨count_str_indices_eq schema entries pages,
    wire_dict_layout schema pages entries 0 0,
    wire_dict_offsets schema pages entries 0 0, ?_, ?_⟩
  · intro j hj
    simpa using mk_layout_get (qual_lens schema pages 0 entries) 0 j hj
  · simp [dict_alloc, count_str_indices_eq schema entries pages]

/-- A BYTE_ARRAY schema element. -/
def sByteArray : SchemaElt :=
  { type := .BYTE_ARRAY, converted_type := .OTHER, max_definition_level := 0,
    max_repetition_level := 0, type_length := 0 }

/-- Two chunks over a BYTE_ARRAY column: one dictionary-bearing spanning
two pages, one without a dictionary spanning one page. -/
def esDict : List (ChunkDesc × ColumnChunkMeta) :=
  [({ dChunk with num_dict_pages := 1, max_num_pages := 2 }, mkCol "s" 0),
   ({ dChunk with max_num_pages := 1 }, mkCol "s" 0)]

/-- Three pages; the first (the dictionary page of the first chunk) has 7
values. -/
def pagesDict : List PageInfo :=
  [{ dPage with num_values := 7 }, { dPage with num_values := 4 },
   { dPage with num_values := 3 }]

/-- Witness for C9: the dictionary-bearing chunk contributes its first
page's 7 values; the index array is allocated with exactly 7 entries. -/
theorem string_dict_witness :
    (esDict.map (fun e => e.1.max_num_pages)).sum = pagesDict.length ∧
    count_str_indices [sByteArray] esDict pagesDict = 7 ∧
    dict_alloc [sByteArray] esDict pagesDict = [AllocEvent.dictIndex 7] :=
  ⟨by decide,
   (string_dict_index_sizing_and_wiring [sByteArray] esDict pagesDict (by decide)).1,
   (string_dict_index_sizing_and_wiring [sByteArray] esDict pagesDict (by decide)).2.2.2.2⟩

/-- The total null contribution the aggregation loop adds to column `k`:
`num_rows - valid_count` over the pages owned by `k` that have a non-zero
row count. -/
def null_delta (cm : List Nat) (k : Nat) : List PageInfo → Int
  | [] => 0
  | p :: ps =>
    (if p.num_rows ≠ 0 ∧ pageOwner cm p = some k then p.num_rows - p.valid_count
     else 0) +
      null_delta cm k ps

/-- The pages owned by column `k` (resolved through the side table with the
source's range guard). -/
def col_pages (cm : List Nat) (k : Nat) (pages : List PageInfo) : List PageInfo :=
  pages.filter (fun p => pageOwner cm p == some k)

/-- Updating column `k` is visible at index `k`. -/
theorem add_null_get_self (cols : List GdfColumn) (k : Nat) (d : Int) :
    (add_null cols k d)[k]?
      = (cols[k]?).map (fun c => { c with null_count := c.null_count + d }) := by
  unfold add_null
  cases h : cols[k]? with
  | none => simp [h]
  | some c =>
    have hk : k < cols.length := by
      by_contra hk
      rw [List.getElem?_eq_none (Nat.le_of_not_lt hk)] at h
      exact Option.noConfusion h
    simp [h, List.getElem?_set_eq_of_lt _ (by simpa using hk)]

/-- Updating column `j` leaves every other index unchanged. -/
theorem add_null_get_other (cols : List GdfColumn) (j k : Nat) (d : Int)
    (hne : j ≠ k) : (add_null cols j d)[k]? = cols[k]? := by
  unfold add_null
  cases h : cols[j]? with
  | none => rfl
  | some c => simp [List.getElem?_set_ne hne]

/-- The aggregation loop adds exactly `null_delta` to column `k`'s null
count and touches nothing else of it. -/
theorem aggregate_nulls_get (cm : List Nat) (k : Nat) :
    ∀ (pages : List PageInfo) (cols : List GdfColumn),
      (aggregate_nulls cm cols pages)[k]? =
        (cols[k]?).map
          (fun c => { c with null_count := c.null_count + null_delta cm k pages }) := by
  intro pages
  induction pages with
  | nil =>
    intro cols
    cases h : cols[k]? <;> simp [aggregate_nulls, null_delta, h]
  | cons p ps ih =>
    intro cols
    show (aggregate_nulls cm (null_step cm cols p) ps)[k]? = _
    rw [ih (null_step cm cols p)]
    unfold null_step
    by_cases h0 : p.num_rows ≠ 0
    · cases ho : pageOwner cm p with
      | none =>
        cases h : cols[k]? <;> simp [h0, ho, null_delta, h]
      | some j =>
        by_cases hjk : j = k
        · subst hjk
          rw [if_pos h0]
          rw [add_null_get_self]
          cases h : cols[j]? <;>
            simp [h0, ho, null_delta, h, Int.add_assoc]
        · rw [if_pos h0]
          rw [add_null_get_other cols j k _ hjk]
          cases h : cols[k]? <;>
            simp [h0, ho, null_delta, h, hjk]
    · rw [if_neg h0]
      cases h : cols[k]? <;> simp [h0, null_delta, h]

/-- Under the decode-engine contract `0 ≤ valid_count ≤ num_rows`, skipping
zero-row pages loses nothing: the loop's contribution to column `k` equals
row sum minus valid sum over all of `k`'s pages. -/
theorem null_delta_eq_sums (cm : List Nat) (k : Nat) :
    ∀ (pages : List PageInfo),
      (∀ p ∈ pages, 0 ≤ p.valid_count ∧ p.valid_count ≤ p.num_rows) →
      null_delta cm k pages =
        ((col_pages cm k pages).map (fun p => p.num_rows)).sum -
          ((col_pages cm k pages).map (fun p => p.valid_count)).sum := by
  intro pages
  induction pages with
  | nil => intro _; simp [null_delta, col_pages]
  | cons p ps ih =>
    intro hv
    have hvp := hv p (List.mem_cons_self p ps)
    have ihh := ih (fun x hx => hv x (List.mem_cons_of_mem p hx))
    by_cases ho : pageOwner cm p = some k
    · by_cases h0 : p.num_rows ≠ 0
      · simp [null_delta, col_pages, List.filter_cons, ho, h0, List.sum_cons] at ihh ⊢
        omega
      · simp only [not_not] at h0
        have hvz : p.valid_count = 0 := by omega
        simp [null_delta, col_pages, List.filter_cons, ho, h0, hvz,
          List.sum_cons] at ihh ⊢
        omega
    · simp [null_delta, col_pages, List.filter_cons, ho] at ihh ⊢
      omega

/-- C7: after page-data decode, a column whose null count started at zero
(as `calloc` leaves it) ends with
`nullCount = rowCount − Σ page.validCount` over that column's pages,
obtained by the loop that adds `(page.rowCount − page.validCount)` for
every page with a non-zero row count into the owning column — provided
every page's valid count lies within its row count (the decode kernel's
contract) and the column's pages partition its rows
(`Σ page.rowCount = rowCount`). -/
theorem null_count_aggregation (cm : List Nat) (cols : List GdfColumn)
    (pages : List PageInfo) (k : Nat) (col : GdfColumn)
    (hk : cols[k]? = some col) (h0 : col.null_count = 0)
    (hv : ∀ p ∈ pages, 0 ≤ p.valid_count ∧ p.valid_count ≤ p.num_rows)
    (hr : ((col_pages cm k pages).map (fun p => p.num_rows)).sum = (col.size : Int)) :
    (aggregate_nulls cm cols pages)[k]? =
      some { col with null_count :=
        (col.size : Int) -
          ((col_pages cm k pages).map (fun p => p.valid_count)).sum } := by
  rw [aggregate_nulls_get, hk]
  simp [null_delta_eq_sums cm k pages hv, h0, hr]

/-- The column of the null-count witness: 5 rows. -/
def colW : GdfColumn :=
  { name := "w", dtype := .GDF_INT32, dtype_info := .TIME_UNIT_NONE, size := 5,
    null_count := 0 }

/-- Two pages of chunk 0: 3 rows with 2 valid, 2 rows with 2 valid. -/
def pagesW : List PageInfo :=
  [{ dPage with chunk_idx := 0, num_rows := 3, valid_count := 2 },
   { dPage with chunk_idx := 0, num_rows := 2, valid_count := 2 }]

/-- Witness for C7: the column ends with null count 5 − 4 = 1. -/
theorem null_count_witness :
    ([colW][0]? = some colW) ∧
    (aggregate_nulls [0] [colW] pagesW)[0]? =
      some { colW with null_count := 1 } :=
  ⟨by decide,
   null_count_aggregation [0] [colW] pagesW 0 colW (by decide) (by decide)
     (by decide) (by decide)⟩

end ParquetReader
